import Mathlib

/-!
Verification development for the SEAquence Korean politeness-analysis engine.

The definitions below are a shallow embedding of the Python sources:
  app/core/constants.py                       (rule tables)
  app/services/politeness_service.py          (sentence-level classifier)
  talkativ-ai-phase1/app/core/corrections.py  (conversion tables, taxonomy)
  talkativ-ai-phase1/app/services/enhanced_politeness_service.py
                                              (word-level classifier)

Modelling conventions:
  - Python dicts used as lookup tables become association lists read with
    List.lookup (insertion order preserved, as in CPython).
  - `dict.get(k, d)` becomes `(l.lookup k).getD d`.
  - Python ints are Nat / Int; ratio arithmetic (floats in [0,1] obtained
    as count/total rounded to two decimals) is modelled exactly in Rat,
    with `round2` implementing round-half-to-even at two decimals.
  - Optional values become Option; Python truthiness tests on an optional
    int or string are modelled explicitly (None, 0 and "" are falsy).
  - The span fields (position_start / position_end) of WordAnalysis and
    Correction, and the display-only fields name_ko / name_en of the data
    classes, are omitted: no claim mentions them and they do not feed any
    branch of the analysed logic.
-/

namespace SEAquence

/-! ### Rule tables (app/core/constants.py) -/

/-- ROLE_LEVELS from app/core/constants.py. -/
def roleLevels : List (String × Nat) :=
  [("junior", 0), ("student", 0), ("friend", 1), ("peer", 1),
   ("senior", 2), ("professor", 3), ("boss", 3)]

/-- Model of `role.lower()`: character-wise lower-casing (all role keys are ASCII,
on which this matches the Python str.lower method). -/
def strLower (s : String) : String :=
  ⟨s.data.map Char.toLower⟩

/-- The lookup `ROLE_LEVELS.get(role.lower(), 1)`, the role-to-hierarchy lookup both
classifier variants perform. -/
def roleLevel (role : String) : Nat :=
  (roleLevels.lookup (strLower role)).getD 1

/-- HONORIFIC_WORDS from app/core/constants.py: honorific marker words with
their weights. -/
def honorificWords : List (String × Nat) :=
  [("드리다", 10), ("여쭙다", 10), ("여쭤", 10), ("말씀", 10),
   ("뵙다", 10), ("뵈다", 10), ("계시다", 10), ("주무시다", 10),
   ("혹시", 5), ("실례", 5), ("죄송", 5), ("감사", 5)]

/-- Substring test on character lists, used to model the Python expression
`word in text` (substring containment). -/
def listContainsRun (n : List Char) : List Char → Bool
  | [] => n.isPrefixOf []
  | c :: t => n.isPrefixOf (c :: t) || listContainsRun n t

/-- Model of `needle in hay` for strings (Python substring containment). -/
def strContains (hay needle : String) : Bool :=
  listContainsRun needle.toList hay.toList

/-- The honorific score accumulated by PolitenessService.analyze: the sum of
the weights of every honorific marker word occurring in the text. -/
def honorificScore (text : String) : Nat :=
  honorificWords.foldl (fun acc p => if strContains text p.1 then acc + p.2 else acc) 0

/-! ### Relationship policy -/

/-- The age test of `_get_recommended_level`, namely
`target_age and target_age > user_age + 3` (Python truthiness: None and 0
are falsy). -/
def ageEscalates (targetAge : Option Nat) (userAge : Nat) : Bool :=
  match targetAge with
  | none => false
  | some a => (a != 0) && decide (userAge + 3 < a)

/-- Embeds `PolitenessService._get_recommended_level` from
app/services/politeness_service.py. -/
def getRecommendedLevel (targetRole : String) (targetAge : Option Nat) (userAge : Nat) :
    String :=
  let targetLevel := roleLevel targetRole
  let userLevel := (roleLevels.lookup "student").getD 0
  let powerDistance : Int := (targetLevel : Int) - (userLevel : Int)
  if 3 ≤ targetLevel then "very_polite"
  else if 0 < powerDistance then "polite"
  else if ageEscalates targetAge userAge then "polite"
  else if powerDistance ≤ 0 then "informal"
  else "polite"

/-- Embeds `EnhancedPolitenessService._get_expected_level` from
talkativ-ai-phase1/app/services/enhanced_politeness_service.py.
`if not target_role` is Python truthiness: None and "" both yield the
"polite" default; the age parameters are accepted but never read. -/
def getExpectedLevel (targetRole : Option String) (targetAge : Option Nat)
    (userAge : Nat) : String :=
  match targetRole with
  | none => "polite"
  | some r =>
    if r = "" then "polite"
    else
      let targetLevel := roleLevel r
      if 3 ≤ targetLevel then "very_polite"
      else if 2 ≤ targetLevel then "polite"
      else "informal"

/-! ### Sentence-level aggregation (politeness_service.py) -/

/-- The dictionary `level_counts` of PolitenessService.analyze. -/
structure LevelCounts where
  very_polite : Nat
  polite : Nat
  informal : Nat
deriving DecidableEq

/-- Embeds `PolitenessService._get_dominant_level`. -/
def getDominantLevel (counts : LevelCounts) (hscore : Nat) : String :=
  if 15 ≤ hscore then "very_polite"
  else if 0 < counts.very_polite then "very_polite"
  else if counts.informal < counts.polite then "polite"
  else if 0 < counts.informal then "informal"
  else "polite"

/-! ### Conversion tables (talkativ-ai-phase1/app/core/corrections.py) -/

/-- INFORMAL_TO_POLITE. -/
def informalToPolite : List (String × String) :=
  [("해", "해요"), ("가", "가요"), ("와", "와요"), ("봐", "봐요"), ("자", "자요"),
   ("먹어", "먹어요"), ("마셔", "마셔요"), ("있어", "있어요"), ("없어", "없어요"),
   ("알아", "알아요"), ("몰라", "몰라요"), ("좋아", "좋아요"), ("싫어", "싫어요"),
   ("했어", "했어요"), ("갔어", "갔어요"), ("왔어", "왔어요"), ("봤어", "봤어요"),
   ("먹었어", "먹었어요"), ("마셨어", "마셨어요"),
   ("뭐해", "뭐 해요"), ("어디가", "어디 가요"), ("왜", "왜요"), ("뭐야", "뭐예요"),
   ("누구야", "누구예요"),
   ("해줘", "해 주세요"), ("가줘", "가 주세요"), ("와줘", "와 주세요"),
   ("도와줘", "도와주세요")]

/-- POLITE_TO_FORMAL. -/
def politeToFormal : List (String × String) :=
  [("해요", "합니다"), ("가요", "갑니다"), ("와요", "옵니다"), ("봐요", "봅니다"),
   ("먹어요", "먹습니다"), ("마셔요", "마십니다"), ("있어요", "있습니다"),
   ("없어요", "없습니다"), ("알아요", "압니다"), ("몰라요", "모릅니다"),
   ("좋아요", "좋습니다"), ("싫어요", "싫습니다"), ("했어요", "했습니다"),
   ("갔어요", "갔습니다"), ("왔어요", "왔습니다"), ("봤어요", "봤습니다"),
   ("먹었어요", "먹었습니다"), ("마셨어요", "마셨습니다"),
   ("뭐 해요", "무엇을 하십니까"), ("어디 가요", "어디 가십니까"),
   ("뭐예요", "무엇입니까"), ("있어요?", "있습니까?"), ("없어요?", "없습니까?"),
   ("해 주세요", "해 주십시오"), ("가 주세요", "가 주십시오"),
   ("도와주세요", "도와주십시오"), ("알려주세요", "알려주십시오")]

/-- INFORMAL_TO_FORMAL. -/
def informalToFormal : List (String × String) :=
  [("해", "합니다"), ("가", "갑니다"), ("와", "옵니다"), ("먹어", "먹습니다"),
   ("마셔", "마십니다"), ("있어", "있습니다"), ("없어", "없습니다"),
   ("알아", "압니다"), ("몰라", "모릅니다"), ("했어", "했습니다"),
   ("갔어", "갔습니다"), ("왔어", "왔습니다"),
   ("뭐해", "무엇을 하십니까"), ("해줘", "해 주십시오")]

/-- The severity field of each ERROR_CATEGORIES entry (the other fields of the
taxonomy are display-only strings that no analysed branch reads). -/
def errorSeverity : List (String × String) :=
  [("ending_mismatch", "high"), ("honorific_missing", "high"),
   ("formality_mixed", "medium"), ("word_choice", "low"),
   ("subject_marker", "low"), ("tone_inappropriate", "medium")]

/-! ### Word-level analysis (enhanced_politeness_service.py) -/

/-- The map `_word_levels` built by
`EnhancedPolitenessService._build_word_level_map`: informal, polite and formal
marker words, then every honorific word mapped to "honorific". -/
def wordLevels : List (String × String) :=
  [("해", "informal"), ("가", "informal"), ("와", "informal"), ("먹어", "informal"),
   ("있어", "informal"), ("없어", "informal"), ("했어", "informal"),
   ("뭐해", "informal"), ("해줘", "informal"),
   ("해요", "polite"), ("가요", "polite"), ("와요", "polite"), ("먹어요", "polite"),
   ("있어요", "polite"), ("없어요", "polite"), ("했어요", "polite"),
   ("주세요", "polite"),
   ("합니다", "very_polite"), ("갑니다", "very_polite"), ("옵니다", "very_polite"),
   ("있습니다", "very_polite"), ("없습니다", "very_polite"),
   ("했습니다", "very_polite"), ("주십시오", "very_polite")]
  ++ honorificWords.map (fun p => (p.1, "honorific"))

/-- The first branch of `_detect_word_level` (the direct `_word_levels` map
hit, defaulting to "neutral").  The full detector falls back to the ending
regular expressions and an honorific substring scan when the map misses; the
claims under verification never depend on that fallback, and this function is
used only as one concrete choice of detector, for words on which it agrees
with `_detect_word_level` because the map hit short-circuits the fallback. -/
def wordMapDetect (w : String) : String :=
  (wordLevels.lookup w).getD "neutral"

/-- The `level_order` dict `{"informal": 0, "polite": 1, "very_polite": 2}`
shared by `_is_word_correct`, `_calculate_score` and
`_check_appropriateness`. -/
def levelOrder : List (String × Int) :=
  [("informal", 0), ("polite", 1), ("very_polite", 2)]

/-- The lookup `level_order.get(s, 1)`: the rank lookup with its default of 1. -/
def levelOrderD (s : String) : Int :=
  (levelOrder.lookup s).getD 1

/-- Embeds `EnhancedPolitenessService._is_word_correct`. -/
def isWordCorrect (current expected : String) : Bool :=
  if current = "neutral" then true
  else if current = "honorific" then true
  else decide (levelOrderD expected ≤ levelOrderD current)

/-- Embeds `EnhancedPolitenessService._get_suggestion`: the conversion-table lookup
selected by the (detected, expected) register pair; `dict.get` misses give
none. -/
def getSuggestion (word current expected : String) : Option String :=
  if current = "informal" ∧ expected = "polite" then informalToPolite.lookup word
  else if current = "informal" ∧ expected = "very_polite" then informalToFormal.lookup word
  else if current = "polite" ∧ expected = "very_polite" then politeToFormal.lookup word
  else none

/-- Embeds `EnhancedPolitenessService._get_error_type`. -/
def getErrorType (current _expected : String) : String :=
  if current = "informal" ∨ current = "polite" ∨ current = "very_polite" then
    "ending_mismatch"
  else "tone_inappropriate"

/-- The WordAnalysis dataclass (span fields omitted, see the header). -/
structure WordAnalysis where
  word : String
  current_level : String
  expected_level : Option String
  is_correct : Bool
  suggestion : Option String
  error_type : Option String
deriving DecidableEq

/-- The per-word body of `EnhancedPolitenessService._analyze_words`, for an
already stripped, non-empty word, parameterised by the word-level detector. -/
def buildWordAnalysis (detect : String → String) (expected : String)
    (wordClean : String) : WordAnalysis :=
  let current := detect wordClean
  let correct := isWordCorrect current expected
  let sug := if correct = false ∧ current ≠ "neutral" then
      getSuggestion wordClean current expected
    else none
  let errT := if correct = false ∧ current ≠ "neutral" then
      some (getErrorType current expected)
    else none
  { word := wordClean, current_level := current,
    expected_level := if current ≠ "neutral" then some expected else none,
    is_correct := correct, suggestion := sug, error_type := errT }

/-- Model of `word.strip()`: drop leading and trailing whitespace characters. -/
def strStrip (s : String) : String :=
  ⟨((s.data.dropWhile Char.isWhitespace).reverse.dropWhile Char.isWhitespace).reverse⟩

/-- Embeds `EnhancedPolitenessService._analyze_words` over an already tokenised word
list: each word is stripped, empty words are skipped, the rest are analysed. -/
def analyzeWords (detect : String → String) (words : List String)
    (expected : String) : List WordAnalysis :=
  words.filterMap fun w =>
    let wc := strStrip w
    if wc = "" then none else some (buildWordAnalysis detect expected wc)

/-- The Correction dataclass (span fields omitted, see the header). -/
structure Correction where
  original : String
  corrected : String
  reason_ko : String
  reason_en : String
deriving DecidableEq

/-- Embeds `EnhancedPolitenessService._get_correction_reason`. -/
def getCorrectionReason (current expected : String) : String × String :=
  if current = "informal" ∧ expected = "polite" then
    ("반말 대신 존댓말(-요)을 사용하세요", "Use polite speech (-요) instead of informal")
  else if current = "informal" ∧ expected = "very_polite" then
    ("반말 대신 격식체(-습니다)를 사용하세요", "Use formal speech (-습니다) instead of informal")
  else if current = "polite" ∧ expected = "very_polite" then
    ("존댓말 대신 격식체(-습니다)를 사용하세요", "Use formal speech (-습니다) instead of polite")
  else ("", "")

/-- Embeds `EnhancedPolitenessService._generate_corrections`:
`if not a.is_correct and a.suggestion` (a None or empty suggestion is falsy)
emits a Correction, otherwise the token is skipped. -/
def generateCorrections (analyses : List WordAnalysis) (expected : String) :
    List Correction :=
  analyses.filterMap fun a =>
    match a.suggestion with
    | none => none
    | some s =>
      if a.is_correct = false ∧ s ≠ "" then
        let r := getCorrectionReason a.current_level expected
        some { original := a.word, corrected := s, reason_ko := r.1, reason_en := r.2 }
      else none

/-! ### Level breakdown and dominant level (enhanced service) -/

/-- One counter of the `counts` dict in `_calculate_level_breakdown`:
tokens whose current_level equals the given key. -/
def countLevel (l : String) (analyses : List WordAnalysis) : Nat :=
  (analyses.filter fun a => a.current_level = l).length

/-- The total `total = sum(counts.values())` in `_calculate_level_breakdown`: all
tokens tagged with one of the four counted levels (neutral tokens are not
counted). -/
def totalCounted (analyses : List WordAnalysis) : Nat :=
  countLevel "informal" analyses + countLevel "polite" analyses
    + countLevel "very_polite" analyses + countLevel "honorific" analyses

/-- The exact value of `count / total` for one level, before rounding
(division by zero yields 0 in Rat, matching the all-zero dict the code
returns when total == 0). -/
def fracOf (l : String) (analyses : List WordAnalysis) : ℚ :=
  (countLevel l analyses : ℚ) / (totalCounted analyses : ℚ)

/-- Round half to even at integer precision, the decimal rounding rule of
the Python round builtin applied to the exact ratio. -/
def roundHalfEven (q : ℚ) : ℤ :=
  let f := ⌊q⌋
  let r := q - f
  if r < 1 / 2 then f
  else if 1 / 2 < r then f + 1
  else if f % 2 = 0 then f else f + 1

/-- Model of `round(x, 2)` on the exact ratio. -/
def round2 (q : ℚ) : ℚ :=
  (roundHalfEven (100 * q) : ℚ) / 100

/-- The breakdown dict returned by `_calculate_level_breakdown`
(keys informal, polite, very_polite, honorific in insertion order). -/
structure Breakdown where
  informal : ℚ
  polite : ℚ
  very_polite : ℚ
  honorific : ℚ
deriving DecidableEq

/-- Embeds `EnhancedPolitenessService._calculate_level_breakdown`. -/
def levelBreakdown (analyses : List WordAnalysis) : Breakdown :=
  if totalCounted analyses = 0 then ⟨0, 0, 0, 0⟩
  else
    { informal := round2 (fracOf "informal" analyses),
      polite := round2 (fracOf "polite" analyses),
      very_polite := round2 (fracOf "very_polite" analyses),
      honorific := round2 (fracOf "honorific" analyses) }

/-- The list `non_zero` of `_get_dominant_level`: the breakdown values of the
non-honorific levels that are strictly positive, in dict order. -/
def nonZeroMainValues (b : Breakdown) : List ℚ :=
  (if 0 < b.informal then [b.informal] else [])
    ++ (if 0 < b.polite then [b.polite] else [])
    ++ (if 0 < b.very_polite then [b.very_polite] else [])

/-- The minimum `min(values)` over a list, with a default for the (guarded away)
empty case. -/
def minList (l : List ℚ) (d : ℚ) : ℚ :=
  match l with
  | [] => d
  | v :: vs => vs.foldl min v

/-- Embeds `EnhancedPolitenessService._get_dominant_level` (the local `non_zero`
list of the source is written out via nonZeroMainValues). -/
def getDominantLevelE (b : Breakdown) : String :=
  if 1 < (nonZeroMainValues b).length ∧ 1 / 5 < minList (nonZeroMainValues b) 0 then
    "mixed"
  else if 0 < b.very_polite then "very_polite"
  else if 0 < b.polite then "polite"
  else if 0 < b.informal then "informal"
  else "polite"

/-- The three main registers, in rank order. The count of register-bearing
tokens (spec wording) counts exactly these. -/
def mains : List String := ["informal", "polite", "very_polite"]

/-- Number of register-bearing tokens: those classified with one of the
three main registers (honorific and neutral tokens carry no register). -/
def mainTotal (analyses : List WordAnalysis) : Nat :=
  countLevel "informal" analyses + countLevel "polite" analyses
    + countLevel "very_polite" analyses

/-! ### Scorer and appropriateness (enhanced service) -/

/-- Embeds `EnhancedPolitenessService._calculate_score`. -/
def calcScore (dominant expected : String) (b : Breakdown) (errorCount : Nat) : Int :=
  let base : Int := 50
  let dv := levelOrderD dominant
  let ev := levelOrderD expected
  let s1 := if ev ≤ dv then base + 30
    else if dv = ev - 1 then base + 10
    else base - 10
  let maxR := max b.informal (max b.polite b.very_polite)
  let s2 := if (4 : ℚ) / 5 < maxR then s1 + 15
    else if maxR < 1 / 2 then s1 - 10
    else s1
  let s3 := s2 - min ((errorCount : Int) * 5) 20
  let s4 := if 0 < b.honorific then s3 + 5 else s3
  max 0 (min 100 s4)

/-- Embeds `EnhancedPolitenessService._check_appropriateness`. -/
def checkAppropriatenessE (actual expected : String) : Bool :=
  if actual = "mixed" then false
  else decide (levelOrderD expected ≤ levelOrderD actual)

/-! ### Error categorizer (enhanced service) -/

/-- Append one example under its error type, preserving first-encounter
order of the keys: the insertion-ordered `error_counts` dict of
`_categorize_errors`. -/
def addErrorExample (acc : List (String × List String)) (t : String)
    (ex : String) : List (String × List String) :=
  match acc with
  | [] => [(t, [ex])]
  | (k, exs) :: rest =>
    if k = t then (k, exs ++ [ex]) :: rest
    else (k, exs) :: addErrorExample rest t ex

/-- The example string built from the word, an arrow and the suggestion (a
None or empty suggestion is falsy and prints as a question mark). -/
def exampleString (a : WordAnalysis) : String :=
  a.word ++ " → " ++ (match a.suggestion with
    | some s => if s = "" then "?" else s
    | none => "?")

/-- The grouping loop of `_categorize_errors`. -/
def errorGroups (analyses : List WordAnalysis) : List (String × List String) :=
  analyses.foldl
    (fun acc a =>
      match a.error_type with
      | some t => addErrorExample acc t (exampleString a)
      | none => acc)
    []

/-- The severity `ERROR_CATEGORIES[t]["severity"]` read via `info.get("severity", "medium")`
on a possibly missing taxonomy entry. -/
def severityOf (t : String) : String :=
  (errorSeverity.lookup t).getD "medium"

/-- The `severity_order` dict `{"high": 0, "medium": 1, "low": 2}` read with
default 1. -/
def severityRank (s : String) : Nat :=
  (([("high", 0), ("medium", 1), ("low", 2)] : List (String × Nat)).lookup s).getD 1

/-- The ErrorDetail dataclass (display-only name fields omitted, see the
header). -/
structure ErrorDetail where
  error_type : String
  severity : String
  count : Nat
  examples : List String
deriving DecidableEq

/-- Insert an ErrorDetail after every element of no greater severity rank:
one step of a stable insertion sort keyed, exactly as
`errors.sort(key=lambda e: severity_order.get(e.severity, 1))`, on the
severity rank alone. -/
def insSorted (e : ErrorDetail) : List ErrorDetail → List ErrorDetail
  | [] => [e]
  | x :: xs =>
    if severityRank x.severity ≤ severityRank e.severity then x :: insSorted e xs
    else e :: x :: xs

/-- Stable sort by severity rank (the Python list.sort method is stable: elements of
equal key keep their relative order, which insSorted preserves by inserting
each element after earlier elements of equal rank). -/
def sortBySeverity (l : List ErrorDetail) : List ErrorDetail :=
  l.foldl (fun acc e => insSorted e acc) []

/-- Embeds `EnhancedPolitenessService._categorize_errors`: group, build the details,
then stable-sort by severity rank alone. -/
def categorizeErrors (analyses : List WordAnalysis) : List ErrorDetail :=
  let errs := (errorGroups analyses).map fun p =>
    { error_type := p.1, severity := severityOf p.1,
      count := p.2.length, examples := p.2.take 3 : ErrorDetail }
  sortBySeverity errs

/-! ## Helper lemmas -/

/-- The speaker level `ROLE_LEVELS.get("student", 0)` is 0. -/
lemma studentLevel_zero : ((roleLevels.lookup "student").getD 0 : Nat) = 0 := by
  decide

/-- Rewrites `_get_recommended_level` as a plain conditional over the role level and
the age test (the trailing dead `return "polite"` of the source is
unreachable because at that point the power distance is nonpositive). -/
lemma recommendedLevel_cases (role : String) (age : Option Nat) (uage : Nat) :
    getRecommendedLevel role age uage =
      if 3 ≤ roleLevel role then "very_polite"
      else if 0 < roleLevel role then "polite"
      else if ageEscalates age uage then "polite"
      else "informal" := by
  simp only [getRecommendedLevel]
  rw [studentLevel_zero]
  split_ifs <;> first | rfl | omega

/-- Rewrites `_get_expected_level` on a non-empty role string as a plain conditional
over the role level. -/
lemma expectedLevel_cases (role : String) (age : Option Nat) (uage : Nat)
    (h : role ≠ "") :
    getExpectedLevel (some role) age uage =
      if 3 ≤ roleLevel role then "very_polite"
      else if 2 ≤ roleLevel role then "polite"
      else "informal" := by
  simp only [getExpectedLevel]
  rw [if_neg h]

/-! ## Claim C1 -/

/-- C1: for every role string, optional target age and speaker age,
`_get_recommended_level` returns very_polite when the hierarchy level of the role
(unknown roles default to 1) is at least 3; otherwise polite when the level
minus the speaker level (student, level 0) is positive; otherwise polite when
the target age is present and exceeds the speaker age by more than 3;
otherwise informal. -/
theorem c1_expected_register_policy (role : String) (age : Option Nat) (uage : Nat) :
    getRecommendedLevel role age uage =
      (if 3 ≤ roleLevel role then "very_polite"
       else if 0 < roleLevel role then "polite"
       else
         match age with
         | some a => if uage + 3 < a then "polite" else "informal"
         | none => "informal") := by
  rw [recommendedLevel_cases]
  rcases age with _ | a
  · simp [ageEscalates]
  · by_cases hgt : uage + 3 < a
    · have he : ageEscalates (some a) uage = true := by
        simp only [ageEscalates, Bool.and_eq_true, bne_iff_ne, ne_eq,
          decide_eq_true_eq]
        exact ⟨by omega, hgt⟩
      simp [he, hgt]
    · have he : ageEscalates (some a) uage = false := by
        simp only [ageEscalates, Bool.and_eq_false_iff, bne_eq_false_iff_eq,
          decide_eq_false_iff_not]
        right
        exact hgt
      simp [he, hgt]

/-! ## Claim C2 -/

/-- C2: whenever the honorific-marker weight sum of the input text reaches
15, the dominant register of the sentence-level classifier is very_polite, no
matter what the very_polite / polite / informal ending counts are. -/
theorem c2_strong_honorific_override (text : String) (counts : LevelCounts)
    (h : 15 ≤ honorificScore text) :
    getDominantLevel counts (honorificScore text) = "very_polite" := by
  unfold getDominantLevel
  rw [if_pos h]

/-- C2 witness: the text made of the two weight-10 honorific verbs has
honorific score 20, and the dominant register is very_polite even with five
informal endings and zero very_polite endings counted. -/
theorem c2_strong_honorific_override_witness :
    15 ≤ honorificScore "여쭙다 드리다" ∧
    getDominantLevel ⟨0, 0, 5⟩ (honorificScore "여쭙다 드리다") = "very_polite" :=
  ⟨by decide, c2_strong_honorific_override "여쭙다 드리다" ⟨0, 0, 5⟩ (by decide)⟩

/-! ## Claim C4 -/

/-- The three main registers in rank order: rank 0 informal, rank 1 polite,
rank 2 very_polite. -/
def mainRegister (i : Fin 3) : String :=
  if i.1 = 0 then "informal" else if i.1 = 1 then "polite" else "very_polite"

/-- C4: `_is_word_correct` is true whenever the detected register is neutral
or honorific, whatever the expected register is; and on the three main
registers it holds exactly when the detected rank is at least the expected
rank in the order informal < polite < very_polite, that rank being the
`level_order` value of the register. -/
theorem c4_is_correct_invariant :
    (∀ e : String, isWordCorrect "neutral" e = true ∧ isWordCorrect "honorific" e = true) ∧
    (∀ i j : Fin 3, (isWordCorrect (mainRegister i) (mainRegister j) = true ↔ j ≤ i)) ∧
    (∀ i : Fin 3, levelOrderD (mainRegister i) = (i.1 : Int)) := by
  refine ⟨fun e => ⟨rfl, rfl⟩, by decide, by decide⟩

/-! ## Claim C5 -/

/-- Every emitted correction comes from an analysed token that is incorrect
and carries exactly that suggestion. -/
lemma generateCorrections_sound {analyses : List WordAnalysis} {expected : String}
    {c : Correction} (hc : c ∈ generateCorrections analyses expected) :
    ∃ a ∈ analyses, a.word = c.original ∧ a.is_correct = false ∧
      a.suggestion = some c.corrected := by
  rcases List.mem_filterMap.mp hc with ⟨a, ha, hfa⟩
  refine ⟨a, ha, ?_⟩
  split at hfa
  · exact Option.noConfusion hfa
  next s hs =>
    split at hfa
    · rename_i hcond
      cases hfa
      exact ⟨rfl, hcond.1, by rw [hs]⟩
    · exact Option.noConfusion hfa

/-- Every analysed token is the analysis of some stripped word. -/
lemma analyzeWords_sound {detect : String → String} {words : List String}
    {expected : String} {a : WordAnalysis} (ha : a ∈ analyzeWords detect words expected) :
    ∃ w, a = buildWordAnalysis detect expected w := by
  rcases List.mem_filterMap.mp ha with ⟨w, _, hwa⟩
  dsimp only at hwa
  by_cases hwt : strStrip w = ""
  · rw [if_pos hwt] at hwa
    exact Option.noConfusion hwa
  · rw [if_neg hwt] at hwa
    exact ⟨strStrip w, (Option.some_inj.mp hwa).symm⟩

/-- A suggestion stored by the word analyser is the table lookup for the
surface text of the word under the (detected, expected) pair. -/
lemma buildWordAnalysis_suggestion {detect : String → String} {expected w s : String}
    (h : (buildWordAnalysis detect expected w).suggestion = some s) :
    getSuggestion w (detect w) expected = some s := by
  unfold buildWordAnalysis at h
  dsimp only at h
  split at h
  · exact h
  · cases h

/-- C5: whatever word-level detector is plugged in, every correction emitted
by `_generate_corrections` over `_analyze_words` output carries as corrected
text exactly the value found by the `_get_suggestion` table lookup for the
surface text of the token under the (detected, expected) register pair; lookup
misses produce no correction, so every emitted corrected form is a verbatim
conversion-table value. -/
theorem c5_corrections_are_verbatim_table_values (detect : String → String)
    (words : List String) (expected : String) (c : Correction)
    (hc : c ∈ generateCorrections (analyzeWords detect words expected) expected) :
    getSuggestion c.original (detect c.original) expected = some c.corrected := by
  rcases generateCorrections_sound hc with ⟨a, ha, hword, _, hsug⟩
  rcases analyzeWords_sound ha with ⟨w, rfl⟩
  have hw : w = c.original := hword
  subst hw
  exact buildWordAnalysis_suggestion hsug

/-- C5 witness: with the word-map detector, analysing "교수님 있어" against a
very_polite expectation emits the correction 있어 → 있습니다, which is the
INFORMAL_TO_FORMAL table entry for 있어. -/
theorem c5_corrections_witness :
    (⟨"있어", "있습니다", "반말 대신 격식체(-습니다)를 사용하세요",
        "Use formal speech (-습니다) instead of informal"⟩ : Correction) ∈
      generateCorrections (analyzeWords wordMapDetect ["교수님", "있어"] "very_polite")
        "very_polite" ∧
    getSuggestion "있어" (wordMapDetect "있어") "very_polite" = some "있습니다" :=
  ⟨by decide,
   c5_corrections_are_verbatim_table_values wordMapDetect ["교수님", "있어"] "very_polite"
     ⟨"있어", "있습니다", "반말 대신 격식체(-습니다)를 사용하세요",
      "Use formal speech (-습니다) instead of informal"⟩ (by decide)⟩

/-! ## Claim C6 -/

/-- C6 counterexample: in `_calculate_score` the mixed register is ranked by
`level_order.get("mixed", 1)`, so against an informal expectation it does
satisfy the greater-or-equal comparison and scores 70 on an all-zero
breakdown, exactly like a very_polite dominant that genuinely outranks the
expectation; the claim that mixed never satisfies that comparison is false. -/
theorem c6_counterexample :
    levelOrderD "informal" ≤ levelOrderD "mixed" ∧
    calcScore "mixed" "informal" ⟨0, 0, 0, 0⟩ 0 = 70 ∧
    calcScore "mixed" "informal" ⟨0, 0, 0, 0⟩ 0 =
      calcScore "very_polite" "informal" ⟨0, 0, 0, 0⟩ 0 := by
  refine ⟨by decide, ?_, ?_⟩ <;> (norm_num [calcScore]; decide)

/-- C6 amended: the scorer ranks a mixed dominant through the dictionary
default 1, identically to polite, so mixed earns the +30 match bonus whenever
the expected register is informal or polite and the +10 one-rank-below bonus
when it is very_polite; only the separate appropriateness check always fails
a mixed dominant. -/
theorem c6_mixed_scored_as_polite (e : String) (b : Breakdown) (n : Nat) :
    calcScore "mixed" e b n = calcScore "polite" e b n ∧
    checkAppropriatenessE "mixed" e = false :=
  ⟨rfl, rfl⟩

/-! ## Claim C7 -/

/-- C7 counterexample: the sentence-level `_get_recommended_level` maps the
unknown role "alien" to hierarchy level 1, whose power distance over the
level-0 speaker is positive, so it returns polite, not informal, even with no
age escalation. -/
theorem c7_counterexample :
    roleLevels.lookup "alien" = none ∧
    roleLevel "alien" = 1 ∧
    getRecommendedLevel "alien" none 22 = "polite" ∧
    getRecommendedLevel "alien" none 22 ≠ "informal" := by
  decide

/-- C7 amended: an unknown, non-empty role string never fails and maps to
hierarchy level 1 in both variants; the word-level `_get_expected_level` then
returns informal whatever the ages are, while the sentence-level
`_get_recommended_level` returns polite (level 1 exceeds the speaker level
0), whatever the ages are. -/
theorem c7_unknown_role_split_behavior (role : String) (age : Option Nat)
    (uage : Nat) (h1 : role ≠ "") (h2 : roleLevels.lookup (strLower role) = none) :
    roleLevel role = 1 ∧
    getExpectedLevel (some role) age uage = "informal" ∧
    getRecommendedLevel role age uage = "polite" := by
  have hl : roleLevel role = 1 := by
    unfold roleLevel
    rw [h2]
    rfl
  refine ⟨hl, ?_, ?_⟩
  · rw [expectedLevel_cases role age uage h1, hl]
    norm_num
  · rw [recommendedLevel_cases, hl]
    norm_num

/-- C7 witness: the concrete unknown role "alien" with no target age. -/
theorem c7_unknown_role_witness :
    ("alien" ≠ "" ∧ roleLevels.lookup (strLower "alien") = none) ∧
    (roleLevel "alien" = 1 ∧
     getExpectedLevel (some "alien") none 22 = "informal" ∧
     getRecommendedLevel "alien" none 22 = "polite") :=
  ⟨⟨by decide, by decide⟩,
   c7_unknown_role_split_behavior "alien" none 22 (by decide) (by decide)⟩

/-! ## Claim C10 -/

/-- C10 counterexample: for the role "friend" (hierarchy level 1) the
sentence-level service recommends polite while the enhanced word-level
service expects informal, so the two expected-register computations are not
equivalent. -/
theorem c10_counterexample :
    getRecommendedLevel "friend" none 22 = "polite" ∧
    getExpectedLevel (some "friend") none 22 = "informal" ∧
    getRecommendedLevel "friend" none 22 ≠ getExpectedLevel (some "friend") none 22 := by
  decide

/-- C10 amended: for any non-empty role string the two variants agree exactly
when the hierarchy level of the role is at least 2, or the level is 0 and the age
test does not escalate; they disagree on every level-1 role (friend, peer,
and all unknown roles: polite versus informal) and on level-0 roles with an
age escalation (polite versus informal). -/
theorem c10_variants_agree_iff (role : String) (age : Option Nat) (uage : Nat)
    (h : role ≠ "") :
    getRecommendedLevel role age uage = getExpectedLevel (some role) age uage ↔
      (2 ≤ roleLevel role ∨ (roleLevel role = 0 ∧ ageEscalates age uage = false)) := by
  rw [recommendedLevel_cases, expectedLevel_cases role age uage h]
  rcases he : ageEscalates age uage with _ | _ <;>
    split_ifs with h1 h2 h3 <;>
    simp_all <;>
    omega

/-- C10 witness: the level-2 role "senior" is a point of agreement. -/
theorem c10_variants_agree_witness :
    "senior" ≠ "" ∧
    getRecommendedLevel "senior" none 22 = getExpectedLevel (some "senior") none 22 :=
  ⟨by decide,
   (c10_variants_agree_iff "senior" none 22 (by decide)).mpr (Or.inl (by decide))⟩

/-! ## Breakdown helper lemmas -/

/-- Rounding an integer value changes nothing. -/
lemma roundHalfEven_intCast (n : ℤ) : roundHalfEven (n : ℚ) = n := by
  unfold roundHalfEven
  rw [Int.floor_intCast]
  norm_num

/-- round2 of a rational equal to n/100 is exactly n/100. -/
lemma round2_eq_of_mul_eq {q : ℚ} {n : ℤ} (h : 100 * q = (n : ℚ)) :
    round2 q = (n : ℚ) / 100 := by
  rw [round2, h, roundHalfEven_intCast]

/-- round2 fixes 0. -/
lemma round2_zero : round2 0 = 0 := by
  rw [round2_eq_of_mul_eq (q := 0) (n := 0) (by norm_num)]
  norm_num

/-- The breakdown always consists of the rounded exact ratios: when the total
is zero every count is zero and the exact ratio is already 0 (division by
zero in Rat), so the zero dict of the code coincides with the rounded
ratios. -/
lemma levelBreakdown_eq (as : List WordAnalysis) :
    levelBreakdown as =
      ⟨round2 (fracOf "informal" as), round2 (fracOf "polite" as),
       round2 (fracOf "very_polite" as), round2 (fracOf "honorific" as)⟩ := by
  unfold levelBreakdown
  split
  · rename_i h
    have h0 : ∀ l, fracOf l as = 0 := by
      intro l
      unfold fracOf
      rw [h]
      norm_num
    simp [h0, round2_zero]
  · rfl

/-! ## Claim C8 -/

/-- Two tokens, one informal and one honorific: the honorific token lands in
the denominator of the three main ratios. -/
def c8Analyses : List WordAnalysis :=
  analyzeWords wordMapDetect ["있어", "드리다"] "polite"

/-- C8 counterexample: on a text with one informal token and one honorific
token there is a register-bearing token, yet the three main-register ratios
reported by `_calculate_level_breakdown` sum to 1/2, not 1; they only reach 1
together with the honorific ratio, which therefore is part of the same sum
rather than separate from it. -/
theorem c8_counterexample :
    1 ≤ mainTotal c8Analyses ∧
    (levelBreakdown c8Analyses).informal + (levelBreakdown c8Analyses).polite +
        (levelBreakdown c8Analyses).very_polite = 1 / 2 ∧
    ((1 : ℚ) / 2 ≠ 1) ∧
    (levelBreakdown c8Analyses).informal + (levelBreakdown c8Analyses).polite +
        (levelBreakdown c8Analyses).very_polite + (levelBreakdown c8Analyses).honorific
      = 1 := by
  have hI : countLevel "informal" c8Analyses = 1 := by decide
  have hP : countLevel "polite" c8Analyses = 0 := by decide
  have hV : countLevel "very_polite" c8Analyses = 0 := by decide
  have hH : countLevel "honorific" c8Analyses = 1 := by decide
  have hT : totalCounted c8Analyses = 2 := by
    rw [totalCounted, hI, hP, hV, hH]
  have hfI : fracOf "informal" c8Analyses = 1 / 2 := by
    rw [fracOf, hI, hT]
    norm_num
  have hfP : fracOf "polite" c8Analyses = 0 := by
    rw [fracOf, hP]
    norm_num
  have hfV : fracOf "very_polite" c8Analyses = 0 := by
    rw [fracOf, hV]
    norm_num
  have hfH : fracOf "honorific" c8Analyses = 1 / 2 := by
    rw [fracOf, hH, hT]
    norm_num
  have hhalf : round2 ((1 : ℚ) / 2) = 1 / 2 := by
    rw [round2_eq_of_mul_eq (n := 50) (by norm_num)]
    norm_num
  have hb : levelBreakdown c8Analyses = ⟨1 / 2, 0, 0, 1 / 2⟩ := by
    rw [levelBreakdown_eq, hfI, hfP, hfV, hfH, round2_zero, hhalf]
  refine ⟨by rw [mainTotal, hI, hP, hV], ?_, by norm_num, ?_⟩ <;>
    rw [hb] <;> norm_num

/-- C8 amended: the four ratios of `_calculate_level_breakdown` are the
two-decimal roundings of count/total where the total counts all informal,
polite, very_polite and honorific tokens together; whenever that total is
positive the four exact fractions (honorific included) sum to 1, so the
honorific ratio shares the denominator and belongs to the unit sum — the
three main ratios alone sum to 1 only when no honorific token occurs. -/
theorem c8_ratio_denominator (as : List WordAnalysis) (h : 0 < totalCounted as) :
    fracOf "informal" as + fracOf "polite" as + fracOf "very_polite" as +
        fracOf "honorific" as = 1 ∧
    levelBreakdown as =
      ⟨round2 (fracOf "informal" as), round2 (fracOf "polite" as),
       round2 (fracOf "very_polite" as), round2 (fracOf "honorific" as)⟩ := by
  refine ⟨?_, levelBreakdown_eq as⟩
  have hT : ((totalCounted as : ℚ)) ≠ 0 := by
    exact_mod_cast Nat.pos_iff_ne_zero.mp h
  unfold fracOf
  rw [div_add_div_same, div_add_div_same, div_add_div_same,
    show ((countLevel "informal" as : ℚ) + (countLevel "polite" as : ℚ) +
        (countLevel "very_polite" as : ℚ) + (countLevel "honorific" as : ℚ)) =
      ((totalCounted as : ℚ)) from by rw [totalCounted]; push_cast; ring]
  exact div_self hT

/-- A single informal token, for the witness. -/
def c8WitnessAnalyses : List WordAnalysis :=
  analyzeWords wordMapDetect ["있어"] "polite"

/-- C8 witness: the amended statement at a one-token analysis. -/
theorem c8_ratio_denominator_witness :
    0 < totalCounted c8WitnessAnalyses ∧
    (fracOf "informal" c8WitnessAnalyses + fracOf "polite" c8WitnessAnalyses +
        fracOf "very_polite" c8WitnessAnalyses + fracOf "honorific" c8WitnessAnalyses
      = 1 ∧
    levelBreakdown c8WitnessAnalyses =
      ⟨round2 (fracOf "informal" c8WitnessAnalyses),
       round2 (fracOf "polite" c8WitnessAnalyses),
       round2 (fracOf "very_polite" c8WitnessAnalyses),
       round2 (fracOf "honorific" c8WitnessAnalyses)⟩) :=
  ⟨by decide, c8_ratio_denominator c8WitnessAnalyses (by decide)⟩

/-! ## Claim C3 -/

/-- Being below every element of a fold of min. -/
lemma lt_foldl_min_iff (d x : ℚ) (l : List ℚ) :
    d < l.foldl min x ↔ d < x ∧ ∀ y ∈ l, d < y := by
  induction l generalizing x with
  | nil => simp
  | cons y ys ih =>
    rw [List.foldl_cons, ih]
    simp only [lt_min_iff, List.mem_cons]
    constructor
    · rintro ⟨⟨h1, h2⟩, h3⟩
      exact ⟨h1, fun z hz => hz.elim (fun hz => hz ▸ h2) (h3 z)⟩
    · rintro ⟨h1, h2⟩
      exact ⟨⟨h1, h2 y (Or.inl rfl)⟩, fun z hz => h2 z (Or.inr hz)⟩

/-- The dominant level is mixed exactly when at least two non-honorific
breakdown values are non-zero and every non-zero one exceeds 1/5. -/
lemma getDominantLevelE_eq_mixed_iff (b : Breakdown) :
    getDominantLevelE b = "mixed" ↔
      (2 ≤ (nonZeroMainValues b).length ∧ ∀ v ∈ nonZeroMainValues b, 1 / 5 < v) := by
  unfold getDominantLevelE
  by_cases hm : 1 < (nonZeroMainValues b).length ∧
      1 / 5 < minList (nonZeroMainValues b) 0
  · rw [if_pos hm]
    rcases hm with ⟨hlen, hmin⟩
    refine ⟨fun _ => ⟨by omega, ?_⟩, fun _ => rfl⟩
    cases hnz : nonZeroMainValues b with
    | nil => rw [hnz] at hlen; simp at hlen
    | cons v vs =>
      rw [hnz] at hmin
      intro x hx
      rcases (lt_foldl_min_iff _ _ _).mp hmin with ⟨h1, h2⟩
      rcases List.mem_cons.mp hx with rfl | hx2
      · exact h1
      · exact h2 _ hx2
  · rw [if_neg hm]
    constructor
    · intro hcontra
      split_ifs at hcontra <;> simp_all
    · rintro ⟨hlen, hall⟩
      exfalso
      apply hm
      refine ⟨by omega, ?_⟩
      cases hnz : nonZeroMainValues b with
      | nil => rw [hnz] at hlen; simp at hlen
      | cons v vs =>
        rw [hnz] at hall
        exact (lt_foldl_min_iff _ _ _).mpr
          ⟨hall v (List.mem_cons_self v vs), fun y hy => hall y (List.mem_cons_of_mem v hy)⟩

/-- The non-zero main breakdown values are the rounded ratios of the main
registers whose rounded ratio is positive, in register order. -/
lemma nonZeroMainValues_breakdown (as : List WordAnalysis) :
    nonZeroMainValues (levelBreakdown as) =
      (mains.filter fun l => 0 < round2 (fracOf l as)).map
        fun l => round2 (fracOf l as) := by
  rw [levelBreakdown_eq]
  simp only [nonZeroMainValues, mains, List.filter_cons, List.filter_nil,
    decide_eq_true_eq]
  split_ifs <;> simp_all

/-- C3 amended: in the enhanced classifier, the dominant register is mixed
exactly when at least two of the three main registers have a positive rounded
ratio and every positive rounded main ratio exceeds 1/5 — where each ratio is
the token count of the register over the total of informal, polite, very_polite
and honorific tokens (honorific included in the denominator), rounded to two
decimals. A third register sitting at or below a 20% rounded share therefore
defeats the mixed verdict even when two other registers are both above it. -/
theorem c3_mixed_requires_every_share_above_fifth (as : List WordAnalysis) :
    getDominantLevelE (levelBreakdown as) = "mixed" ↔
      (2 ≤ (mains.filter fun l => 0 < round2 (fracOf l as)).length ∧
       ∀ l ∈ mains, 0 < round2 (fracOf l as) → 1 / 5 < round2 (fracOf l as)) := by
  rw [getDominantLevelE_eq_mixed_iff, nonZeroMainValues_breakdown]
  simp only [List.length_map, List.mem_map, List.mem_filter, decide_eq_true_eq]
  constructor
  · rintro ⟨hlen, hall⟩
    exact ⟨hlen, fun l hl hpos => hall _ ⟨l, ⟨hl, hpos⟩, rfl⟩⟩
  · rintro ⟨hlen, hall⟩
    refine ⟨hlen, ?_⟩
    rintro v ⟨l, ⟨hl, hpos⟩, rfl⟩
    exact hall l hl hpos

/-- Ten register-bearing tokens: four informal, four polite, two
very_polite, all taken directly from the `_word_levels` marker lists. -/
def c3Analyses : List WordAnalysis :=
  analyzeWords wordMapDetect
    ["해", "가", "와", "먹어", "해요", "가요", "와요", "먹어요", "합니다", "갑니다"]
    "polite"

/-- C3 counterexample: informal and polite each hold 2/5 of the ten
register-bearing tokens — two main registers above the 20% mark — yet the
dominant register is very_polite, not mixed, because the very_polite share
sits exactly at 1/5 and the code demands every non-zero share to exceed
1/5. -/
theorem c3_counterexample :
    (countLevel "informal" c3Analyses : ℚ) / (mainTotal c3Analyses : ℚ) = 2 / 5 ∧
    (countLevel "polite" c3Analyses : ℚ) / (mainTotal c3Analyses : ℚ) = 2 / 5 ∧
    (1 : ℚ) / 5 < 2 / 5 ∧
    getDominantLevelE (levelBreakdown c3Analyses) = "very_polite" ∧
    getDominantLevelE (levelBreakdown c3Analyses) ≠ "mixed" := by
  have hI : countLevel "informal" c3Analyses = 4 := by decide
  have hP : countLevel "polite" c3Analyses = 4 := by decide
  have hV : countLevel "very_polite" c3Analyses = 2 := by decide
  have hH : countLevel "honorific" c3Analyses = 0 := by decide
  have hM : mainTotal c3Analyses = 10 := by rw [mainTotal, hI, hP, hV]
  have hT : totalCounted c3Analyses = 10 := by rw [totalCounted, hI, hP, hV, hH]
  have hfI : fracOf "informal" c3Analyses = 2 / 5 := by
    rw [fracOf, hI, hT]
    norm_num
  have hfP : fracOf "polite" c3Analyses = 2 / 5 := by
    rw [fracOf, hP, hT]
    norm_num
  have hfV : fracOf "very_polite" c3Analyses = 1 / 5 := by
    rw [fracOf, hV, hT]
    norm_num
  have hfH : fracOf "honorific" c3Analyses = 0 := by
    rw [fracOf, hH]
    norm_num
  have h25 : round2 ((2 : ℚ) / 5) = 2 / 5 := by
    rw [round2_eq_of_mul_eq (n := 40) (by norm_num)]
    norm_num
  have h15 : round2 ((1 : ℚ) / 5) = 1 / 5 := by
    rw [round2_eq_of_mul_eq (n := 20) (by norm_num)]
    norm_num
  have hb : levelBreakdown c3Analyses = ⟨2 / 5, 2 / 5, 1 / 5, 0⟩ := by
    rw [levelBreakdown_eq, hfI, hfP, hfV, hfH, round2_zero, h25, h15]
  have hdom : getDominantLevelE ⟨2 / 5, 2 / 5, 1 / 5, (0 : ℚ)⟩ = "very_polite" := by
    norm_num [getDominantLevelE, nonZeroMainValues, minList, min_def]
  refine ⟨by rw [hI, hM]; norm_num, by rw [hP, hM]; norm_num, by norm_num,
    by rw [hb, hdom], by rw [hb, hdom]; decide⟩

/-! ## Claim C9 -/

/-- Membership through one insertion step. -/
lemma mem_insSorted {b e : ErrorDetail} {l : List ErrorDetail} :
    b ∈ insSorted e l ↔ b = e ∨ b ∈ l := by
  induction l with
  | nil => simp [insSorted]
  | cons x xs ih =>
    rw [insSorted]
    split_ifs <;> simp only [List.mem_cons, ih] <;> tauto

/-- Inserting into a severity-sorted list keeps it severity-sorted. -/
lemma pairwise_insSorted {e : ErrorDetail} {l : List ErrorDetail}
    (h : l.Pairwise fun a b => severityRank a.severity ≤ severityRank b.severity) :
    (insSorted e l).Pairwise fun a b => severityRank a.severity ≤ severityRank b.severity := by
  induction l with
  | nil => simp [insSorted]
  | cons x xs ih =>
    rw [insSorted]
    rcases List.pairwise_cons.mp h with ⟨hx, hxs⟩
    split_ifs with hc
    · refine List.pairwise_cons.mpr ⟨?_, ih hxs⟩
      intro b hb
      rcases mem_insSorted.mp hb with rfl | hb2
      · exact hc
      · exact hx b hb2
    · refine List.pairwise_cons.mpr ⟨?_, h⟩
      intro b hb
      rcases List.mem_cons.mp hb with rfl | hb2
      · omega
      · exact le_trans (by omega) (hx b hb2)

/-- The insertion fold sorts any list by severity rank. -/
lemma pairwise_sortBySeverity (l : List ErrorDetail) :
    (sortBySeverity l).Pairwise fun a b =>
      severityRank a.severity ≤ severityRank b.severity := by
  suffices H : ∀ acc : List ErrorDetail,
      acc.Pairwise (fun a b => severityRank a.severity ≤ severityRank b.severity) →
      (l.foldl (fun acc e => insSorted e acc) acc).Pairwise
        (fun a b => severityRank a.severity ≤ severityRank b.severity) by
    exact H [] (by simp)
  induction l with
  | nil => intro acc h; simpa using h
  | cons e es ih =>
    intro acc h
    exact ih _ (pairwise_insSorted h)

/-- C9 amended: the error summaries produced by `_categorize_errors` are
sorted by non-decreasing severity rank (high = 0 before medium = 1 before
low = 2, unknown severities ranked as medium); summaries of equal severity
keep their first-encounter order — the sort key contains no count, so equal
severities are not reordered by descending count. On analyses actually
produced by the engine every error token is tagged ending_mismatch, so at
most one summary ever exists and the tie rule is never exercised. -/
theorem c9_summaries_sorted_by_severity (analyses : List WordAnalysis) :
    (categorizeErrors analyses).Pairwise fun a b =>
      severityRank a.severity ≤ severityRank b.severity := by
  unfold categorizeErrors
  exact pairwise_sortBySeverity _

/-- Three tokens carrying two medium-severity taxonomy keys, the
first-encountered key occurring once and the second twice. -/
def c9Analyses : List WordAnalysis :=
  [{ word := "교수님 뭐해", current_level := "informal", expected_level := some "polite",
     is_correct := false, suggestion := none, error_type := some "formality_mixed" },
   { word := "해", current_level := "informal", expected_level := some "polite",
     is_correct := false, suggestion := none, error_type := some "tone_inappropriate" },
   { word := "가", current_level := "informal", expected_level := some "polite",
     is_correct := false, suggestion := none, error_type := some "tone_inappropriate" }]

/-- C9 counterexample: on a token list with a count-1 medium-severity
category encountered before a count-2 medium-severity category, the
categorizer returns the count-1 summary first: equal-severity summaries are
in first-encounter order, not descending-count order, refuting the claimed
tie-breaking rule. -/
theorem c9_counterexample :
    ((categorizeErrors c9Analyses).map fun e => (e.severity, e.count)) =
      [("medium", 1), ("medium", 2)] ∧
    ¬ (categorizeErrors c9Analyses).Pairwise (fun a b =>
        severityRank a.severity < severityRank b.severity ∨
          (severityRank a.severity = severityRank b.severity ∧ b.count ≤ a.count)) := by
  decide

end SEAquence
